import Mathlib

/-!
Shallow embedding of the elastic client library's request-building layer:
the multi-search `SearchRequest` header/body projection (search_request.go)
and the `IndexService` document-index operation (index.go), together with
the Go standard-library behaviour they rely on (`net/url` query encoding).
Machine strings are modelled as Lean `String`s; Go's byte-wise operations
agree with the code-point-wise models below on ASCII data, the only data
this development evaluates.
-/

namespace Elastic

/-! ### Go standard-library model: `net/url` query escaping and encoding -/

/-- Byte-order lexicographic `<` on character lists, as Go's `sort.Strings`
compares strings (agrees with Go on ASCII data). -/
def ltChars : List Char → List Char → Bool
  | [], [] => false
  | [], _ :: _ => true
  | _ :: _, [] => false
  | c :: cs, d :: ds => if c < d then true else if d < c then false else ltChars cs ds

/-- Boolean `a ≤ b` on strings in Go's `sort.Strings` order. -/
def strLeb (a b : String) : Bool := !(ltChars b.data a.data)

/-- Upper-case hexadecimal digit, as Go's `net/url` percent-escaping emits. -/
def hexUpperDigit (n : Nat) : Char :=
  if n < 10 then Char.ofNat (48 + n) else Char.ofNat (55 + n)

/-- Percent-encoding of one character (`%XX`, upper-case hex); modelled per
code point, which agrees with Go's per-byte escaping on ASCII characters. -/
def percentEncodeChar (c : Char) : String :=
  String.mk ['%', hexUpperDigit (c.toNat / 16 % 16), hexUpperDigit (c.toNat % 16)]

/-- Characters Go's `net/url` escaping leaves untouched: ASCII alphanumerics
and `-`, `_`, `.`, `~`. -/
def isUnreservedChar (c : Char) : Bool :=
  c.isAlphanum || c == '-' || c == '_' || c == '.' || c == '~'

/-- One character of Go's `url.QueryEscape`: space becomes `+`, unreserved
characters pass through, everything else is percent-encoded. -/
def queryEscapeChar (c : Char) : String :=
  if c == ' ' then "+"
  else if isUnreservedChar c then String.mk [c]
  else percentEncodeChar c

/-- Escape every character of a list with `f` and concatenate. -/
def escapeWith (f : Char → String) : List Char → String
  | [] => ""
  | c :: cs => f c ++ escapeWith f cs

/-- Go's `url.QueryEscape` (on ASCII strings). -/
def queryEscape (s : String) : String := escapeWith queryEscapeChar s.data

/-- One character of path-segment percent-escaping: unreserved characters
pass through, everything else is percent-encoded. -/
def pathEscapeChar (c : Char) : String :=
  if isUnreservedChar c then String.mk [c] else percentEncodeChar c

/-- Percent-escaping of one URI path segment. -/
def pathEscape (s : String) : String := escapeWith pathEscapeChar s.data

/-- Go's `url.Values`, restricted to the single-value-per-key usage `Do`
makes of it (only `Set` is ever called): an association list. -/
abbrev Values := List (String × String)

/-- `url.Values.Set`: replace any previous value for the key. -/
def Values.set (v : Values) (key value : String) : Values :=
  v.filter (fun p => p.1 != key) ++ [(key, value)]

/-- Insert a pair into a list sorted by key. -/
def insertSorted (p : String × String) : List (String × String) → List (String × String)
  | [] => [p]
  | q :: qs => if strLeb p.1 q.1 then p :: q :: qs else q :: insertSorted p qs

/-- Sort an association list by key (Go's `Encode` sorts its keys with
`sort.Strings`; the keys `Do` produces are pairwise distinct, so placement
of equal keys is immaterial). -/
def sortByKey : List (String × String) → List (String × String)
  | [] => []
  | p :: ps => insertSorted p (sortByKey ps)

/-- Go's `url.Values.Encode`: keys sorted, each pair rendered as
`QueryEscape(k)=QueryEscape(v)`, joined with `&`. -/
def Values.encode (v : Values) : String :=
  String.intercalate "&"
    ((sortByKey v).map (fun p => queryEscape p.1 ++ "=" ++ queryEscape p.2))

/-! ### SearchRequest (search_request.go) -/

/-- A value stored in the multi-search header mapping: either a scalar
string or a sequence of strings. -/
inductive HeaderValue where
  | str : String → HeaderValue
  | seq : List String → HeaderValue
deriving DecidableEq

/-- `SearchRequest` combines a search request and its query details.
The opaque `source interface{}` field is modelled by a type parameter;
the Go nil default is `none`. -/
structure SearchRequest (α : Type) where
  searchType : String := ""
  indices : List String := []
  types : List String := []
  routing : Option String := none
  preference : Option String := none
  source : Option α := none
deriving DecidableEq

/-- `NewSearchRequest` creates a new search request (empty indices and
types, everything else unset). -/
def NewSearchRequest : SearchRequest α := {}

def SearchRequest.SearchType (r : SearchRequest α) (searchType : String) : SearchRequest α :=
  { r with searchType := searchType }

def SearchRequest.SearchTypeDfsQueryThenFetch (r : SearchRequest α) : SearchRequest α :=
  r.SearchType "dfs_query_then_fetch"

def SearchRequest.SearchTypeDfsQueryAndFetch (r : SearchRequest α) : SearchRequest α :=
  r.SearchType "dfs_query_and_fetch"

def SearchRequest.SearchTypeQueryThenFetch (r : SearchRequest α) : SearchRequest α :=
  r.SearchType "query_then_fetch"

def SearchRequest.SearchTypeQueryAndFetch (r : SearchRequest α) : SearchRequest α :=
  r.SearchType "query_and_fetch"

def SearchRequest.SearchTypeScan (r : SearchRequest α) : SearchRequest α :=
  r.SearchType "scan"

def SearchRequest.SearchTypeCount (r : SearchRequest α) : SearchRequest α :=
  r.SearchType "count"

def SearchRequest.Index (r : SearchRequest α) (index : String) : SearchRequest α :=
  { r with indices := r.indices ++ [index] }

def SearchRequest.Indices (r : SearchRequest α) (indices : List String) : SearchRequest α :=
  { r with indices := r.indices ++ indices }

def SearchRequest.HasIndices (r : SearchRequest α) : Bool :=
  r.indices.length > 0

def SearchRequest.Type (r : SearchRequest α) (typ : String) : SearchRequest α :=
  { r with types := r.types ++ [typ] }

def SearchRequest.Types (r : SearchRequest α) (types : List String) : SearchRequest α :=
  { r with types := r.types ++ types }

def SearchRequest.Routing (r : SearchRequest α) (routing : String) : SearchRequest α :=
  { r with routing := some routing }

/-- The Go variadic slice parameter is modelled as `Option (List String)`:
`none` is the nil slice a zero-argument call passes, `some l` a call with
the arguments `l`. -/
def SearchRequest.Routings (r : SearchRequest α) (routings : Option (List String)) : SearchRequest α :=
  match routings with
  | some routings => { r with routing := some (String.intercalate "," routings) }
  | none => { r with routing := none }

def SearchRequest.Preference (r : SearchRequest α) (preference : String) : SearchRequest α :=
  { r with preference := some preference }

/-- `header()` is used by MultiSearch to get information about the search
header of one `SearchRequest`. The Go `map[string]interface{}` is modelled
as an association list whose keys are pairwise distinct by construction;
each conditional block of the source contributes its entry in turn. -/
def SearchRequest.header (r : SearchRequest α) : List (String × HeaderValue) :=
  (if r.searchType ≠ "" then [("search_type", HeaderValue.str r.searchType)] else [])
  ++ (match r.indices with
      | [] => []
      | [index] => [("index", HeaderValue.str index)]
      | indices => [("indices", HeaderValue.seq indices)])
  ++ (match r.types with
      | [] => []
      | [typ] => [("types", HeaderValue.str typ)]
      | types => [("type", HeaderValue.seq types)])
  ++ (match r.routing with
      | some routing => if routing ≠ "" then [("routing", HeaderValue.str routing)] else []
      | none => [])
  ++ (match r.preference with
      | some preference => if preference ≠ "" then [("preference", HeaderValue.str preference)] else []
      | none => [])

/-- `body()` is used by MultiSearch to get the search body of one
`SearchRequest`: it returns the stored source. -/
def SearchRequest.body (r : SearchRequest α) : Option α := r.source

/-- State-passing form of the `header()` method: the source builds a fresh
map and never assigns to a field of the receiver, so the post-state is the
receiver unchanged. -/
def SearchRequest.headerS (r : SearchRequest α) : List (String × HeaderValue) × SearchRequest α :=
  (r.header, r)

/-- State-passing form of the `body()` method: the source only reads
`r.source`, so the post-state is the receiver unchanged. -/
def SearchRequest.bodyS (r : SearchRequest α) : Option α × SearchRequest α :=
  (r.body, r)

/-! ### IndexService (index.go) -/

/-- `IndexResult` is the result of indexing a document (the Go field
`Type` is spelled `Type'`, which Lean reserves). -/
structure IndexResult where
  Index : String
  Type' : String
  Id : String
  Version : Int
  Created : Bool
deriving DecidableEq

/-- `IndexService` adds documents to Elasticsearch. The `client` field is
the injected HTTP-executor collaborator and is modelled as an argument of
`Do`; `bodyJson interface{}` is modelled by the type parameter with `none`
for Go nil; `version *int64` is modelled as `Option Int` (it is only ever
printed in decimal, never computed with, so the 64-bit width is
immaterial). -/
structure IndexService (β : Type) where
  index : String := ""
  _type : String := ""
  id : String := ""
  routing : String := ""
  parent : String := ""
  opType : String := ""
  refresh : Option Bool := none
  version : Option Int := none
  versionType : String := ""
  timestamp : String := ""
  ttl : String := ""
  timeout : String := ""
  bodyString : String := ""
  bodyJson : Option β := none
  pretty : Bool := false
  debug : Bool := false
deriving DecidableEq

/-- `NewIndexService` returns a builder with every field at its zero
value. -/
def NewIndexService : IndexService β := {}

def IndexService.Index (b : IndexService β) (name : String) : IndexService β :=
  { b with index := name }

def IndexService.Type (b : IndexService β) (typ : String) : IndexService β :=
  { b with _type := typ }

def IndexService.Id (b : IndexService β) (id : String) : IndexService β :=
  { b with id := id }

def IndexService.Routing (b : IndexService β) (routing : String) : IndexService β :=
  { b with routing := routing }

def IndexService.Parent (b : IndexService β) (parent : String) : IndexService β :=
  { b with parent := parent }

def IndexService.OpType (b : IndexService β) (opType : String) : IndexService β :=
  { b with opType := opType }

def IndexService.Refresh (b : IndexService β) (refresh : Bool) : IndexService β :=
  { b with refresh := some refresh }

def IndexService.Version (b : IndexService β) (version : Int) : IndexService β :=
  { b with version := some version }

def IndexService.VersionType (b : IndexService β) (versionType : String) : IndexService β :=
  { b with versionType := versionType }

def IndexService.Timestamp (b : IndexService β) (timestamp : String) : IndexService β :=
  { b with timestamp := timestamp }

def IndexService.TTL (b : IndexService β) (ttl : String) : IndexService β :=
  { b with ttl := ttl }

def IndexService.Timeout (b : IndexService β) (timeout : String) : IndexService β :=
  { b with timeout := timeout }

def IndexService.BodyString (b : IndexService β) (body : String) : IndexService β :=
  { b with bodyString := body }

def IndexService.BodyJson (b : IndexService β) (json : β) : IndexService β :=
  { b with bodyJson := some json }

def IndexService.Pretty (b : IndexService β) (pretty : Bool) : IndexService β :=
  { b with pretty := pretty }

def IndexService.Debug (b : IndexService β) (debug : Bool) : IndexService β :=
  { b with debug := debug }

/-- Modelled from the spec: the `uritemplates` package is not under `src`;
§4.2 step 1 says template variables are percent-encoded individually and
substituted into the template. Expansion of `/\x7bindex\x7d/\x7btype\x7d/\x7bid\x7d`. -/
def expandIndexTypeId (index typ id : String) : String :=
  "/" ++ pathEscape index ++ "/" ++ pathEscape typ ++ "/" ++ pathEscape id

/-- Modelled from the spec, as `expandIndexTypeId`: expansion of
`/\x7bindex\x7d/\x7btype\x7d/`, the automatic-id template. -/
def expandIndexType (index typ : String) : String :=
  "/" ++ pathEscape index ++ "/" ++ pathEscape typ ++ "/"

/-- The method chosen by `Do`: PUT with an explicit document id, POST for
automatic id generation. -/
def IndexService.method (b : IndexService β) : String :=
  if b.id ≠ "" then "PUT" else "POST"

/-- The expanded URL path chosen by `Do` (before the query string). -/
def IndexService.path (b : IndexService β) : String :=
  if b.id ≠ "" then expandIndexTypeId b.index b._type b.id
  else expandIndexType b.index b._type

/-- The parameter block of `Do`: each parameter is `Set` only under its
condition, in source order. -/
def IndexService.params (b : IndexService β) : Values :=
  let params : Values := []
  let params := if b.pretty then params.set "pretty" "true" else params
  let params := if b.routing ≠ "" then params.set "routing" b.routing else params
  let params := if b.parent ≠ "" then params.set "parent" b.parent else params
  let params := if b.opType ≠ "" then params.set "op_type" b.opType else params
  let params := if b.refresh = some true then params.set "refresh" "true" else params
  let params := match b.version with
    | some version => params.set "version" (toString version)
    | none => params
  let params := if b.versionType ≠ "" then params.set "version_type" b.versionType else params
  let params := if b.timestamp ≠ "" then params.set "timestamp" b.timestamp else params
  let params := if b.ttl ≠ "" then params.set "ttl" b.ttl else params
  let params := if b.timeout ≠ "" then params.set "timeout" b.timeout else params
  params

/-- The query-string suffix `Do` appends to the expanded path: empty when
no parameter was set, otherwise `?` followed by the `url.Values`
encoding. -/
def IndexService.queryString (b : IndexService β) : String :=
  if b.params.length > 0 then "?" ++ Values.encode b.params else ""

/-- The full request URL `Do` passes to the executor. -/
def IndexService.url (b : IndexService β) : String :=
  b.path ++ b.queryString

/-- The request body: `SetBodyJson` when `bodyJson` is non-nil, else
`SetBodyString` (the empty string when neither was set). -/
inductive BodyVal (β : Type) where
  | json : β → BodyVal β
  | str : String → BodyVal β
deriving DecidableEq

def IndexService.bodyVal (b : IndexService β) : BodyVal β :=
  match b.bodyJson with
  | some json => BodyVal.json json
  | none => BodyVal.str b.bodyString

/-- An HTTP response as seen by `Do`: a status code and a body, the body
left abstract (its JSON decoding is modelled by a decoder argument). -/
structure Response (γ : Type) where
  statusCode : Nat
  body : γ
deriving DecidableEq

/-- The errors `Do` can return: a transport error propagated from the
executor, the status error raised by `checkResponse`, or a JSON decode
error. -/
inductive DoError (γ : Type) where
  | transport
  | httpStatus (statusCode : Nat) (body : γ)
  | decodeError
deriving DecidableEq

/-- Modelled from the spec: `checkResponse` is code of this repository
outside `src`; §4.2 step 5 says a response status indicating failure
(non-2xx, per §8) fails with an `HTTPStatusError` carrying status and
body, and per §8 no decode is attempted. -/
def checkResponse (res : Response γ) : Option (DoError γ) :=
  if 200 ≤ res.statusCode ∧ res.statusCode < 300 then none
  else some (DoError.httpStatus res.statusCode res.body)

/-- `Do` performs the index operation: build method, URL and body, send
one request through the injected executor `client`, check the status, and
decode the response body into an `IndexResult`. The executor and the JSON
decoder are the external collaborators, passed as functions; a transport
failure is any `Except.error` from the executor. -/
def IndexService.Do (b : IndexService β)
    (client : String → String → BodyVal β → Except Unit (Response γ))
    (decode : γ → Option IndexResult) : Except (DoError γ) IndexResult :=
  match client b.method b.url b.bodyVal with
  | Except.error _ => Except.error DoError.transport
  | Except.ok res =>
    match checkResponse res with
    | some e => Except.error e
    | none =>
      match decode res.body with
      | none => Except.error DoError.decodeError
      | some ret => Except.ok ret

/-! ### Specification-side definitions for claim C3 -/

/-- The query string exactly as claim C3 states it: the nine listed
parameters, each under its presence condition, emitted in the listed
order, with `?` prepended only when the set is non-empty. -/
def specQueryListedOrder (b : IndexService β) : String :=
  let ps := (if b.routing ≠ "" then [("routing", b.routing)] else [])
    ++ (if b.parent ≠ "" then [("parent", b.parent)] else [])
    ++ (if b.opType ≠ "" then [("op_type", b.opType)] else [])
    ++ (if b.refresh = some true then [("refresh", "true")] else [])
    ++ (match b.version with
        | some version => [("version", toString version)]
        | none => [])
    ++ (if b.versionType ≠ "" then [("version_type", b.versionType)] else [])
    ++ (if b.timestamp ≠ "" then [("timestamp", b.timestamp)] else [])
    ++ (if b.ttl ≠ "" then [("ttl", b.ttl)] else [])
    ++ (if b.timeout ≠ "" then [("timeout", b.timeout)] else [])
  if ps.length > 0 then
    "?" ++ String.intercalate "&" (ps.map (fun p => queryEscape p.1 ++ "=" ++ queryEscape p.2))
  else ""

/-- The parameter set of `Do` written as one flat conditional list, in the
order the source adds parameters (`pretty` first, then the nine of §4.2
step 2). -/
def specParamsList (b : IndexService β) : List (String × String) :=
  (if b.pretty then [("pretty", "true")] else [])
  ++ (if b.routing ≠ "" then [("routing", b.routing)] else [])
  ++ (if b.parent ≠ "" then [("parent", b.parent)] else [])
  ++ (if b.opType ≠ "" then [("op_type", b.opType)] else [])
  ++ (if b.refresh = some true then [("refresh", "true")] else [])
  ++ (match b.version with
      | some version => [("version", toString version)]
      | none => [])
  ++ (if b.versionType ≠ "" then [("version_type", b.versionType)] else [])
  ++ (if b.timestamp ≠ "" then [("timestamp", b.timestamp)] else [])
  ++ (if b.ttl ≠ "" then [("ttl", b.ttl)] else [])
  ++ (if b.timeout ≠ "" then [("timeout", b.timeout)] else [])

/-- The query string as claim C3 holds after amendment: the listed
parameters plus `pretty`, each under its presence condition, encoded as
`url.Values.Encode` does — keys sorted lexicographically, each pair
escaped — with `?` prepended only when the set is non-empty. -/
def specQueryAmended (b : IndexService β) : String :=
  if (specParamsList b).length > 0 then
    "?" ++ String.intercalate "&"
      ((sortByKey (specParamsList b)).map (fun p => queryEscape p.1 ++ "=" ++ queryEscape p.2))
  else ""

/-! ### Helper lemmas -/

theorem lookup_append {β : Type} (l₁ l₂ : List (String × β)) (a : String) :
    (l₁ ++ l₂).lookup a = ((l₁.lookup a).or (l₂.lookup a)) := by
  induction l₁ with
  | nil => simp [List.lookup]
  | cons p l ih =>
    obtain ⟨k, v⟩ := p
    by_cases h : a == k <;> simp [List.lookup, h, ih]

theorem filter_ite {X : Type} (c : Prop) [Decidable c] (f : X → Bool) (A B : List X) :
    List.filter f (if c then A else B) = if c then A.filter f else B.filter f := by
  split <;> rfl

theorem filter_singleton_ne {k k' v : String} (h : k ≠ k') :
    List.filter (fun p => p.1 != k') [(k, v)] = [(k, v)] := by
  simp [h]

theorem ite_append_distrib {X : Type} (c : Prop) [Decidable c] (A B C : List X) :
    (if c then A ++ B else A ++ C) = A ++ (if c then B else C) := by
  split <;> rfl

theorem ite_append_pull {X : Type} (c : Prop) [Decidable c] (A B : List X) :
    (if c then A ++ B else A) = A ++ (if c then B else []) := by
  split <;> simp

theorem ite_append_pull2 {X : Type} (c : Prop) [Decidable c] (A B : List X) :
    (if c then A else A ++ B) = A ++ (if c then [] else B) := by
  split <;> simp

theorem ite_cons_pull {X : Type} (c : Prop) [Decidable c] (a : X) (A B : List X) :
    (if c then a :: A else a :: B) = a :: (if c then A else B) := by
  split <;> rfl

/-- The parameter block of `Do` equals the flat conditional list: every
`url.Values.Set` call targets a key distinct from all previously set keys,
so each `Set` is a plain append. -/
theorem params_eq {β : Type} (b : IndexService β) : b.params = specParamsList b := by
  cases hv : b.version <;>
  simp [IndexService.params, specParamsList, Values.set, hv, filter_ite,
    filter_singleton_ne, ite_append_distrib, ite_append_pull, ite_append_pull2,
    ite_cons_pull, List.filter_append]

theorem mem_ite_singleton {X : Type} {x y : X} {c : Prop} [Decidable c] :
    x ∈ (if c then [y] else ([] : List X)) ↔ c ∧ x = y := by
  split <;> simp [*]

theorem pathEscapeChar_length (c : Char) : 1 ≤ (pathEscapeChar c).length := by
  unfold pathEscapeChar percentEncodeChar
  split <;> simp [String.length]

theorem pathEscape_ne_empty {s : String} (h : s ≠ "") : pathEscape s ≠ "" := by
  intro hemp
  apply h
  cases s with
  | mk data =>
    cases data with
    | nil => rfl
    | cons c cs =>
      exfalso
      have hl : (pathEscape (String.mk (c :: cs))).length = 0 := by rw [hemp]; rfl
      have hu : pathEscape (String.mk (c :: cs))
          = pathEscapeChar c ++ escapeWith pathEscapeChar cs := rfl
      rw [hu, String.length_append] at hl
      have := pathEscapeChar_length c
      omega

/-! ### Claim theorems -/

/-- Claim C1: `header()` applies the inverted singular/plural key rule for
types — exactly one type added gives key `types` holding that type as a
scalar and no key `type`; two or more types give key `type` holding the
sequence in insertion order and no key `types`; no type gives neither
key. -/
theorem header_types_inversion {α : Type} (r : SearchRequest α) :
    (∀ t, r.types = [t] →
      r.header.lookup "types" = some (HeaderValue.str t) ∧ r.header.lookup "type" = none)
    ∧ (2 ≤ r.types.length →
      r.header.lookup "type" = some (HeaderValue.seq r.types) ∧ r.header.lookup "types" = none)
    ∧ (r.types = [] →
      r.header.lookup "type" = none ∧ r.header.lookup "types" = none) := by
  refine ⟨?_, ?_, ?_⟩
  · intro t h
    simp only [SearchRequest.header, lookup_append, h]
    repeat' split
    all_goals simp_all [List.lookup]
  · intro h
    rcases hts : r.types with _ | ⟨t₁, _ | ⟨t₂, ts⟩⟩
    · rw [hts] at h; simp at h
    · rw [hts] at h; simp at h
    · simp only [SearchRequest.header, lookup_append, hts]
      repeat' split
      all_goals simp_all [List.lookup]
  · intro h
    simp only [SearchRequest.header, lookup_append, h]
    repeat' split
    all_goals simp_all [List.lookup]

def c1Single : SearchRequest Unit := NewSearchRequest.Type "post"

def c1Multi : SearchRequest Unit := (NewSearchRequest.Type "post").Type "user"

def c1None : SearchRequest Unit := NewSearchRequest

/-- Witness for C1 at concrete descriptors with one, two and zero types. -/
theorem header_types_inversion_witness :
    (c1Single.header.lookup "types" = some (HeaderValue.str "post")
      ∧ c1Single.header.lookup "type" = none)
    ∧ (c1Multi.header.lookup "type" = some (HeaderValue.seq ["post", "user"])
      ∧ c1Multi.header.lookup "types" = none)
    ∧ (c1None.header.lookup "type" = none ∧ c1None.header.lookup "types" = none) :=
  ⟨(header_types_inversion c1Single).1 "post" rfl,
   (header_types_inversion c1Multi).2.1 (by decide),
   (header_types_inversion c1None).2.2 rfl⟩

/-- Claim C2: `header()` emits indices as key `index` holding the scalar
when exactly one index was added (never `indices`), as key `indices`
holding the sequence in insertion order when two or more were added
(never `index`), and emits neither key when none was added. -/
theorem header_indices_rule {α : Type} (r : SearchRequest α) :
    (∀ i, r.indices = [i] →
      r.header.lookup "index" = some (HeaderValue.str i) ∧ r.header.lookup "indices" = none)
    ∧ (2 ≤ r.indices.length →
      r.header.lookup "indices" = some (HeaderValue.seq r.indices) ∧ r.header.lookup "index" = none)
    ∧ (r.indices = [] →
      r.header.lookup "index" = none ∧ r.header.lookup "indices" = none) := by
  refine ⟨?_, ?_, ?_⟩
  · intro i h
    simp only [SearchRequest.header, lookup_append, h]
    repeat' split
    all_goals simp_all [List.lookup]
  · intro h
    rcases his : r.indices with _ | ⟨i₁, _ | ⟨i₂, is⟩⟩
    · rw [his] at h; simp at h
    · rw [his] at h; simp at h
    · simp only [SearchRequest.header, lookup_append, his]
      repeat' split
      all_goals simp_all [List.lookup]
  · intro h
    simp only [SearchRequest.header, lookup_append, h]
    repeat' split
    all_goals simp_all [List.lookup]

def c2Single : SearchRequest Unit := NewSearchRequest.Index "blog"

def c2Multi : SearchRequest Unit := NewSearchRequest.Indices ["blog", "news"]

def c2None : SearchRequest Unit := NewSearchRequest.SearchTypeCount

/-- Witness for C2 at concrete descriptors with one, two and zero
indices. -/
theorem header_indices_rule_witness :
    (c2Single.header.lookup "index" = some (HeaderValue.str "blog")
      ∧ c2Single.header.lookup "indices" = none)
    ∧ (c2Multi.header.lookup "indices" = some (HeaderValue.seq ["blog", "news"])
      ∧ c2Multi.header.lookup "index" = none)
    ∧ (c2None.header.lookup "index" = none ∧ c2None.header.lookup "indices" = none) :=
  ⟨(header_indices_rule c2Single).1 "blog" rfl,
   (header_indices_rule c2Multi).2.1 (by decide),
   (header_indices_rule c2None).2.2 rfl⟩

def c3b : IndexService Unit := { routing := "r", parent := "p", pretty := true }

/-- Counterexample to claim C3 as stated: on a builder with routing `r`,
parent `p` and pretty set, `Do` produces the query string
`?parent=p&pretty=true&routing=r` — alphabetical key order and an extra
`pretty` parameter — while the claimed listed-order emission of the nine
parameters gives `?routing=r&parent=p`. -/
theorem query_not_listed_order :
    c3b.queryString = "?parent=p&pretty=true&routing=r"
    ∧ specQueryListedOrder c3b = "?routing=r&parent=p"
    ∧ c3b.queryString ≠ specQueryListedOrder c3b :=
  ⟨rfl, rfl, by decide⟩

/-- Claim C3 as amended: the query string is the emission of exactly the
listed parameters plus `pretty`, each included only when
present/non-default, rendered as `url.Values.Encode` renders them — keys
in lexicographic order, not the listed order — and the `?`-prefixed query
string is appended only when the parameter set is non-empty. -/
theorem query_amended {β : Type} (b : IndexService β) :
    b.queryString = specQueryAmended b := by
  simp only [IndexService.queryString, specQueryAmended, Values.encode]
  rw [params_eq]

/-- Claim C4: with a non-empty document id the method is PUT and the path
is the expansion of the id template, ending in the encoded id; with no id
the method is POST and the path is the expansion of the auto-generation
template, ending in a slash. -/
theorem do_method_path {β : Type} (b : IndexService β) :
    (b.id ≠ "" → b.method = "PUT" ∧ b.path = expandIndexTypeId b.index b._type b.id
      ∧ b.path = "/" ++ pathEscape b.index ++ "/" ++ pathEscape b._type ++ "/" ++ pathEscape b.id)
    ∧ (b.id = "" → b.method = "POST" ∧ b.path = expandIndexType b.index b._type
      ∧ ∃ s, b.path = s ++ "/") := by
  constructor
  · intro h
    refine ⟨?_, ?_, ?_⟩ <;> simp [IndexService.method, IndexService.path, h, expandIndexTypeId]
  · intro h
    refine ⟨?_, ?_, ?_⟩
    · simp [IndexService.method, h]
    · simp [IndexService.path, h]
    · refine ⟨"/" ++ pathEscape b.index ++ "/" ++ pathEscape b._type, ?_⟩
      simp [IndexService.path, h, expandIndexType]

def c4put : IndexService Unit := ((NewIndexService.Index "blog").Type "post").Id "42"

def c4post : IndexService Unit := (NewIndexService.Index "blog").Type "post"

/-- Witness for C4 at a builder with id `42` and a builder without id. -/
theorem do_method_path_witness :
    (c4put.method = "PUT" ∧ c4put.path = expandIndexTypeId "blog" "post" "42"
      ∧ c4put.path = "/" ++ pathEscape "blog" ++ "/" ++ pathEscape "post" ++ "/" ++ pathEscape "42")
    ∧ (c4post.method = "POST" ∧ c4post.path = expandIndexType "blog" "post"
      ∧ ∃ s, c4post.path = s ++ "/") :=
  ⟨(do_method_path c4put).1 (by decide), (do_method_path c4post).2 rfl⟩

/-- Claim C5: `Routings` with zero arguments (the nil variadic slice)
clears routing to absent, and `Routings` with values `a`, `b` sets the
routing field to the single comma-joined string `a,b`. -/
theorem routings_clear_and_join {α : Type} (r : SearchRequest α) :
    (r.Routings none).routing = none
    ∧ (r.Routings (some ["a", "b"])).routing = some "a,b" :=
  ⟨rfl, rfl⟩

/-- Claim C6: the `refresh` parameter appears in the parameter set exactly
when refresh was set to `true`, and a builder on which `Refresh false` was
called produces the same query string as the otherwise-identical builder
on which `Refresh` was never called. -/
theorem refresh_only_true {β : Type} (b : IndexService β) :
    (("refresh", "true") ∈ b.params ↔ b.refresh = some true)
    ∧ (b.refresh = none → (b.Refresh false).queryString = b.queryString) := by
  constructor
  · rw [params_eq]
    cases hv : b.version <;>
    simp [specParamsList, hv, mem_ite_singleton]
  · intro h
    have hp : (b.Refresh false).params = b.params := by
      rw [params_eq, params_eq]
      simp [specParamsList, IndexService.Refresh, h]
    simp [IndexService.queryString, hp]

def c6b : IndexService Unit := { routing := "x", refresh := some true }

def c6n : IndexService Unit := { routing := "x" }

/-- Witness for C6 at a builder with refresh set to true and a builder
with refresh never set. -/
theorem refresh_only_true_witness :
    (("refresh", "true") ∈ c6b.params ↔ c6b.refresh = some true)
    ∧ (c6n.Refresh false).queryString = c6n.queryString :=
  ⟨(refresh_only_true c6b).1, (refresh_only_true c6n).2 rfl⟩

/-- Claim C7: `Version 0` puts the parameter `version=0` into the query
parameter set, while a builder on which `Version` was never called has no
`version` parameter at all — explicit zero is distinguished from unset.
The third conjunct records that the pair is rendered literally as
`version=0` by the encoder. -/
theorem version_zero_distinguished {β : Type} (b : IndexService β) :
    ("version", toString (0 : Int)) ∈ (b.Version 0).params
    ∧ (b.version = none → ∀ v, ("version", v) ∉ b.params)
    ∧ queryEscape "version" ++ "=" ++ queryEscape (toString (0 : Int)) = "version=0" := by
  refine ⟨?_, ?_, rfl⟩
  · rw [params_eq]
    simp [specParamsList, IndexService.Version, mem_ite_singleton]
  · intro h v
    rw [params_eq]
    simp [specParamsList, h, mem_ite_singleton]

def c7b : IndexService Unit := { routing := "x" }

/-- Witness for C7 at a builder with routing `x` and no version. -/
theorem version_zero_distinguished_witness :
    ("version", toString (0 : Int)) ∈ (c7b.Version 0).params
    ∧ (("version", "0") ∉ c7b.params)
    ∧ queryEscape "version" ++ "=" ++ queryEscape (toString (0 : Int)) = "version=0" :=
  ⟨(version_zero_distinguished c7b).1,
   (version_zero_distinguished c7b).2.1 rfl "0",
   (version_zero_distinguished c7b).2.2⟩

/-- Claim C8: the outcome of `Do` is exclusive — when the response status
is not 2xx, `Do` returns the status error whatever the decoder would do,
never decoding the body; and whenever `Do` returns a result, the executor
returned a 2xx response whose body decoded to exactly that result. -/
theorem do_failure_exclusive {β γ : Type} (b : IndexService β) (res : Response γ) :
    (¬ (200 ≤ res.statusCode ∧ res.statusCode < 300) →
      ∀ decode, b.Do (fun _ _ _ => Except.ok res) decode
        = Except.error (DoError.httpStatus res.statusCode res.body))
    ∧ (∀ (client : String → String → BodyVal β → Except Unit (Response γ))
        (decode : γ → Option IndexResult) (ret : IndexResult),
        b.Do client decode = Except.ok ret →
        ∃ r2, client b.method b.url b.bodyVal = Except.ok r2
          ∧ (200 ≤ r2.statusCode ∧ r2.statusCode < 300) ∧ decode r2.body = some ret) := by
  constructor
  · intro h decode
    simp [IndexService.Do, checkResponse, h]
  · intro client decode ret hdo
    unfold IndexService.Do at hdo
    rcases hcl : client b.method b.url b.bodyVal with e | r2 <;> rw [hcl] at hdo
    · simp at hdo
    · refine ⟨r2, rfl, ?_⟩
      rcases hc : checkResponse r2 with _ | e
      · have h2 : 200 ≤ r2.statusCode ∧ r2.statusCode < 300 := by
          by_contra hn
          simp [checkResponse, hn] at hc
        rcases hd : decode r2.body with _ | x
        · simp [hc, hd] at hdo
        · simp [hc, hd] at hdo
          exact ⟨h2, by simp [hd, hdo]⟩
      · simp [hc] at hdo

def c8b : IndexService Unit := NewIndexService

def c8res : Response Unit := { statusCode := 404, body := () }

def c8ret : IndexResult :=
  { Index := "blog", Type' := "post", Id := "1", Version := 1, Created := true }

def c8client : String → String → BodyVal Unit → Except Unit (Response Unit) :=
  fun _ _ _ => Except.ok { statusCode := 200, body := () }

def c8dec : Unit → Option IndexResult := fun _ => some c8ret

/-- Witness for C8: a mocked 404 response makes `Do` fail with the status
error, and a mocked 200 response with a decoding body makes `Do` return
exactly the decoded result. -/
theorem do_failure_exclusive_witness :
    c8b.Do (fun _ _ _ => Except.ok c8res) (fun _ => none)
      = Except.error (DoError.httpStatus 404 ())
    ∧ (∃ r2, c8client c8b.method c8b.url c8b.bodyVal = Except.ok r2
        ∧ (200 ≤ r2.statusCode ∧ r2.statusCode < 300)
        ∧ c8dec r2.body = some c8ret) :=
  ⟨(do_failure_exclusive c8b c8res).1 (by decide) (fun _ => none),
   (do_failure_exclusive c8b c8res).2 c8client c8dec c8ret rfl⟩

/-- Claim C9: the header and body projections are pure — the state-passing
forms of the methods return the receiver unchanged, the body projection
returns exactly the stored source value, and equal states project equal
views. -/
theorem projections_pure {α : Type} (r : SearchRequest α) :
    r.headerS.2 = r ∧ r.bodyS.2 = r ∧ r.bodyS.1 = r.source
    ∧ (∀ s : SearchRequest α, r = s → r.headerS.1 = s.headerS.1 ∧ r.bodyS.1 = s.bodyS.1) :=
  ⟨rfl, rfl, rfl, fun s h => by rw [h]; exact ⟨rfl, rfl⟩⟩

def c9r : SearchRequest Unit := { (NewSearchRequest : SearchRequest Unit) with source := some () }

/-- Witness for C9 at a concrete descriptor holding a source value. -/
theorem projections_pure_witness :
    c9r.headerS.2 = c9r ∧ c9r.bodyS.2 = c9r ∧ c9r.bodyS.1 = some ()
    ∧ (c9r.headerS.1 = c9r.headerS.1 ∧ c9r.bodyS.1 = c9r.bodyS.1) :=
  ⟨(projections_pure c9r).1, (projections_pure c9r).2.1, (projections_pure c9r).2.2.1,
   (projections_pure c9r).2.2.2 c9r rfl⟩

/-- Claim C10: `Id ""` is indistinguishable from never setting an id —
it stores the empty string, the zero value, so a fresh builder is
unchanged by it; with an empty id `Do` selects POST and the
auto-generation path ending in a slash; and a PUT request implies a
non-empty id whose encoded path segment is non-empty, so no PUT request
with an empty id segment is ever produced. -/
theorem id_empty_indistinguishable {β : Type} (b : IndexService β) :
    b.Id "" = { b with id := "" }
    ∧ ((NewIndexService : IndexService β).Id "" = NewIndexService)
    ∧ (b.id = "" → b.method = "POST" ∧ b.path = expandIndexType b.index b._type
        ∧ ∃ s, b.path = s ++ "/")
    ∧ (b.method = "PUT" → b.id ≠ "" ∧ pathEscape b.id ≠ ""
        ∧ b.path = "/" ++ pathEscape b.index ++ "/" ++ pathEscape b._type ++ "/" ++ pathEscape b.id) := by
  refine ⟨rfl, rfl, ?_, ?_⟩
  · intro h
    refine ⟨?_, ?_, ⟨"/" ++ pathEscape b.index ++ "/" ++ pathEscape b._type, ?_⟩⟩ <;>
      simp [IndexService.method, IndexService.path, h, expandIndexType]
  · intro h
    have hid : b.id ≠ "" := by
      intro hemp
      rw [IndexService.method, if_neg (by simp [hemp])] at h
      exact absurd h (by decide)
    exact ⟨hid, pathEscape_ne_empty hid, by simp [IndexService.path, hid, expandIndexTypeId]⟩

def c10e : IndexService Unit := NewIndexService.Id ""

def c10p : IndexService Unit := ((NewIndexService.Index "blog").Type "post").Id "7"

/-- Witness for C10 at a fresh builder given an empty id and a builder
given the id `7`. -/
theorem id_empty_indistinguishable_witness :
    (c10e = NewIndexService)
    ∧ (c10e.method = "POST" ∧ c10e.path = expandIndexType "" ""
        ∧ ∃ s, c10e.path = s ++ "/")
    ∧ (c10p.id ≠ "" ∧ pathEscape c10p.id ≠ ""
        ∧ c10p.path = "/" ++ pathEscape "blog" ++ "/" ++ pathEscape "post" ++ "/" ++ pathEscape "7") :=
  ⟨(id_empty_indistinguishable (NewIndexService : IndexService Unit)).2.1,
   (id_empty_indistinguishable c10e).2.2.1 rfl,
   (id_empty_indistinguishable c10p).2.2.2 rfl⟩

end Elastic
